import Mathlib

/-
A verification development for `src/microservice_complexity_analysis.py`.

The Python program is shallowly embedded: pure string manipulation is
translated directly; the filesystem walk (`os.walk`) is modelled by an
explicit file tree; external library calls whose outputs the program merely
consumes (the regex engine `re`, the XML parser `xml.etree`, `json.load`,
and the `git` subprocesses) are modelled as oracle inputs carrying the
values those calls would return; every `try/except` of the source is
translated to a `match` on an `Except` value at the same place.
Python `set`s become `Finset`s; machine-level concerns do not arise.
-/

namespace MCA

/-- One step of Python `str.strip`: remove from the END of a character list
every trailing character satisfying `p`. -/
def dropTrailingWhile (p : Char → Bool) : List Char → List Char
  | [] => []
  | c :: cs =>
    match dropTrailingWhile p cs with
    | [] => if p c then [] else [c]
    | r => c :: r

/-- Python `str.strip(chars)`: drop characters satisfying `p` from both ends. -/
def pyStripBoth (p : Char → Bool) (l : List Char) : List Char :=
  dropTrailingWhile p (l.dropWhile p)

/-- Python `str.strip()` with no argument (whitespace on both ends). -/
def py_strip_ws (s : String) : String := String.mk (pyStripBoth Char.isWhitespace s.data)

/-- Python `s.strip("/")`. -/
def py_strip_slashes (s : String) : String :=
  String.mk (pyStripBoth (fun c => c == '/') s.data)

/-- Line 132 of the source: `unique.add((method, "/" + match.strip("/")))` —
the endpoint-path normalization applied to every captured route string. -/
def normalize_endpoint_path (s : String) : String :=
  String.mk ('/' :: (py_strip_slashes s).data)

/-- Decides whether `sub` is a prefix of `l` (Python startswith on lists). -/
def list_is_pre : List Char → List Char → Bool
  | [], _ => true
  | _ :: _, [] => false
  | a :: sub, b :: l => a == b && list_is_pre sub l

/-- Decides whether `sub` occurs as a contiguous subsequence of `l`
(Python substring containment, the `in` operator on strings). -/
def list_contains_seq (sub : List Char) : List Char → Bool
  | [] => list_is_pre sub []
  | b :: rest => list_is_pre sub (b :: rest) || list_contains_seq sub rest

/-- Python `sub in s` for strings. -/
def py_in (sub s : String) : Bool := list_contains_seq sub.data s.data

/-- Python `s.startswith(pre)`. -/
def py_startswith (s pre : String) : Bool := list_is_pre pre.data s.data

/-- Python `s.endswith(suffix)` for one candidate suffix. -/
def py_endswith (s sfx : String) : Bool := list_is_pre sfx.data.reverse s.data.reverse

/-- Line 44 of the source. -/
def EXCLUDE_DIRS : List String :=
  ["node_modules", "frontend", "client", "web", "ui", "dist", "build", "__mocks__", "test"]

/-- Line 42 of the source (kept as a list; membership is what the code uses). -/
def UNWANTED_SCOPES : List String := ["test", "provided", "system", "import"]

/-- Lines 47-48 of the source: `any(excl in path for excl in EXCLUDE_DIRS)`. -/
def is_excluded_path (path : String) : Bool :=
  EXCLUDE_DIRS.any (fun excl => py_in excl path)

/-- Python `s.split("==")[0]`: the text before the first occurrence of `==`. -/
def py_before_eqeq_list : List Char → List Char
  | [] => []
  | '=' :: '=' :: _ => []
  | c :: rest => c :: py_before_eqeq_list rest

/-- Python `s.split("==")[0]` on strings. -/
def py_before_eqeq (s : String) : String := String.mk (py_before_eqeq_list s.data)

/-- Worker for Python `s.split()`: `cur` is the current token, reversed. -/
def split_ws_go : List Char → List Char → List String
  | cur, [] => if cur.isEmpty then [] else [String.mk cur.reverse]
  | cur, c :: rest =>
    if c.isWhitespace then
      if cur.isEmpty then split_ws_go [] rest
      else String.mk cur.reverse :: split_ws_go [] rest
    else split_ws_go (c :: cur) rest

/-- Python `s.split()` (no argument): split on whitespace, dropping empties. -/
def py_split_ws (s : String) : List String := split_ws_go [] s.data

end MCA

namespace MCA

/-- An XML element as the dependency parser sees it: only its text matters.
`text = none` models an element whose `.text` is Python `None`. -/
structure XElem where
  text : Option String
deriving Repr, DecidableEq

/-- One `<dependency>` node of a `pom.xml`, as found by
`root.findall(".//mvn:dependencies/mvn:dependency", NS)`: each field is the
result of `dep_node.find(...)`, `none` when the child element is absent. -/
structure DepNode where
  scopeElem : Option XElem
  groupId : Option XElem
  artifactId : Option XElem
  version : Option XElem
deriving Repr, DecidableEq

/-- A file of the walked tree. `content` is the outcome of opening and
reading it as text (`Except.error` = the read or decode raised).
`xmlParse` is the oracle outcome of `ET.parse` on this file and `jsonDeps`
the oracle outcome of `json.load(...)["dependencies"].keys()`; both are
`Except.error` whenever the respective external parser would raise. -/
structure MFile where
  name : String
  content : Except Unit (List String)
  xmlParse : Except Unit (List DepNode)
  jsonDeps : Except Unit (List String)

mutual
/-- A directory: its regular files and its subdirectories. -/
inductive FTree where
  | node : List MFile → FForest → FTree
/-- The subdirectories of a directory, each with its name. -/
inductive FForest where
  | nil : FForest
  | cons : String → FTree → FForest → FForest
end

/-- `os.path.join` for the cases the walk produces. -/
def py_join (a b : String) : String := a ++ "/" ++ b

mutual
/-- `os.walk(p)`: the `(dirpath, filenames)` pairs in top-down order
(the unused `dirnames` component is omitted). -/
def walk (p : String) : FTree → List (String × List MFile)
  | .node fs sub => (p, fs) :: walk_forest p sub
def walk_forest (p : String) : FForest → List (String × List MFile)
  | .nil => []
  | .cons name t rest => walk (py_join p name) t ++ walk_forest p rest
end

/-- The shared shape of all three extraction loops: fold over the walk,
skipping any directory whose path is excluded (`if is_excluded_path(root):
continue`). -/
def walk_fold {α : Type} (step : α → String × List MFile → α)
    (init : α) (entries : List (String × List MFile)) : α :=
  entries.foldl (fun acc e => if is_excluded_path e.1 then acc else step acc e) init

/-- Line 127 of the source: `file.endswith((...))`. -/
def ends_with_any (name : String) (exts : List String) : Bool :=
  exts.any (fun e => py_endswith name e)

/-- The source-file extension allowlist of `count_endpoints` (line 127). -/
def SRC_EXTS_EP : List String := [".py", ".js", ".ts", ".java", ".kt", ".php", ".go"]

/-- The source-file extension allowlist of `count_inter_service_calls` (line 143). -/
def SRC_EXTS_CALL : List String := [".py", ".js", ".ts", ".java", ".kt"]

/-- Python `f.read()` of a file stored as newline-free lines. -/
def join_lines (lines : List String) : String := String.intercalate "\n" lines

/-- Per-file body of `count_endpoints` (lines 126-134).  `matchE` is the
regex oracle: for a file content it returns, in order, the pairs
`(method, captured text)` that the loop over `API_ENDPOINT_PATTERNS` and
`re.findall` produces.  An unreadable file (`content = .error`) is skipped
by the `except Exception: continue`. -/
def ep_file_step (matchE : String → List (String × String))
    (acc : Finset (String × String)) (f : MFile) : Finset (String × String) :=
  if ends_with_any f.name SRC_EXTS_EP then
    match f.content with
    | .error _ => acc
    | .ok lines =>
      (matchE (join_lines lines)).foldl
        (fun a mp => insert (mp.1, normalize_endpoint_path mp.2) a) acc
  else acc

/-- `count_endpoints` (lines 121-135): the deduplicated endpoint set, returned
as `(len(unique), ...)`; the sorted display list is modelled by the Finset of
the formatted `"METHOD /path"` strings it contains. -/
def count_endpoints (matchE : String → List (String × String))
    (path : String) (t : FTree) : Nat × Finset String :=
  let u := walk_fold (fun acc e => e.2.foldl (ep_file_step matchE) acc)
    (∅ : Finset (String × String)) (walk path t)
  (u.card, u.image (fun mp => mp.1 ++ " " ++ mp.2))

/-- Per-file body of `count_inter_service_calls` (lines 142-150).  `matchC`
is the regex oracle giving the full matched spans (`match.group(0)`) of the
`CALL_PATTERNS` loop; each is added after Python `.strip()`. -/
def call_file_step (matchC : String → List String)
    (acc : Finset String) (f : MFile) : Finset String :=
  if ends_with_any f.name SRC_EXTS_CALL then
    match f.content with
    | .error _ => acc
    | .ok lines => (matchC (join_lines lines)).foldl (fun a m => insert (py_strip_ws m) a) acc
  else acc

/-- `count_inter_service_calls` (lines 137-151): `(len(matches), sorted(matches))`,
the sorted list modelled by the set of its elements. -/
def count_inter_service_calls (matchC : String → List String)
    (path : String) (t : FTree) : Nat × Finset String :=
  let u := walk_fold (fun acc e => e.2.foldl (call_file_step matchC) acc)
    (∅ : Finset String) (walk path t)
  (u.card, u)

/-- `element.text.strip()` — raises `AttributeError` when `.text` is `None`. -/
def elem_text_strip (e : XElem) : Except Unit String :=
  match e.text with
  | none => .error ()
  | some t => .ok (py_strip_ws t)

/-- Lines 78-83: group/artifact/version extraction for one dependency node,
reached when the node was not skipped by the scope check.  The f-string
evaluates `gid.text.strip()`, then `aid.text.strip()`, then the version. -/
def pom_node_coord_gav (n : DepNode) : Except Unit (Option String) :=
  match n.groupId, n.artifactId with
  | some g, some a =>
    match g.text with
    | none => .error ()
    | some gt =>
      match a.text with
      | none => .error ()
      | some at2 =>
        match n.version with
        | some v =>
          match v.text with
          | none => .error ()
          | some vt =>
            .ok (some (py_strip_ws gt ++ ":" ++ py_strip_ws at2 ++ ":" ++ py_strip_ws vt))
        | none =>
          .ok (some (py_strip_ws gt ++ ":" ++ py_strip_ws at2 ++ ":" ++ "<inherited>"))
  | _, _ => .ok none

/-- Lines 75-83 for one dependency node: `.ok none` = the node contributes
nothing (unwanted scope, or groupId/artifactId missing), `.ok (some c)` =
it contributes coordinate `c`, `.error` = the node raised. -/
def pom_node_coord (n : DepNode) : Except Unit (Option String) :=
  match n.scopeElem with
  | some sc =>
    match sc.text with
    | none => .error ()
    | some t =>
      if UNWANTED_SCOPES.contains (py_strip_ws t) then .ok none
      else pom_node_coord_gav n
  | none => pom_node_coord_gav n

/-- The `for dep_node in ...` loop of lines 74-83, run inside the `try` of
lines 71-85: a raising node aborts the loop but the coordinates already
added to the (outer, shared) `deps` set are kept. -/
def pom_nodes_fold : List DepNode → Finset String → Finset String
  | [], deps => deps
  | n :: ns, deps =>
    match pom_node_coord n with
    | .error _ => deps
    | .ok none => pom_nodes_fold ns deps
    | .ok (some c) => pom_nodes_fold ns (insert c deps)

/-- Lines 93-100: the `requirements.txt` loop.  Note the guard is
`line.strip() and not line.startswith("#")` on the raw line. -/
def requirements_fold (lines : List String) (deps : Finset String) : Finset String :=
  lines.foldl
    (fun d line =>
      if !(py_strip_ws line == "") && !py_startswith line "#" then
        insert (py_before_eqeq (py_strip_ws line)) d
      else d)
    deps

/-- Lines 109-118: the `go.mod` loop — `parts = line.split()`; when the line
starts with `require` and has a second token, that token is added. -/
def gomod_fold (lines : List String) (deps : Finset String) : Finset String :=
  lines.foldl
    (fun d line =>
      if py_startswith line "require" then
        match py_split_ws line with
        | _ :: p1 :: _ => insert p1 d
        | _ => d
      else d)
    deps

/-- The Python variable `root` of the directory loop in `count_dependencies`:
it holds the walk's dirpath until line 73 (`root = tree.getroot()`)
overwrites it with the parsed XML root element of a `pom.xml`. -/
inductive RootVar where
  | dir : String → RootVar
  | xmlElem : RootVar

/-- Per-file body of `count_dependencies` (lines 63-118).  `gradleFind` is
the regex oracle for the `build.gradle` pattern of line 105.  When the
`root` variable holds an XML element, `os.path.join(root, file)` raises
`TypeError`, which lines 68-69 swallow with `continue` — so the file is
skipped. -/
def dep_file_step (gradleFind : String → List String)
    (st : RootVar × Finset String) (f : MFile) : RootVar × Finset String :=
  let rv := st.1
  let deps := st.2
  if f.name = "" then (rv, deps)
  else
    match rv with
    | .xmlElem => (rv, deps)
    | .dir _ =>
      if f.name = "pom.xml" then
        match f.xmlParse with
        | .error _ => (rv, deps)
        | .ok nodes => (.xmlElem, pom_nodes_fold nodes deps)
      else if f.name = "package.json" then
        match f.jsonDeps with
        | .error _ => (rv, deps)
        | .ok keys => (rv, deps ∪ keys.toFinset)
      else if f.name = "requirements.txt" then
        match f.content with
        | .error _ => (rv, deps)
        | .ok lines => (rv, requirements_fold lines deps)
      else if f.name = "build.gradle" then
        match f.content with
        | .error _ => (rv, deps)
        | .ok lines => (rv, deps ∪ (gradleFind (join_lines lines)).toFinset)
      else if f.name = "go.mod" then
        match f.content with
        | .error _ => (rv, deps)
        | .ok lines => (rv, gomod_fold lines deps)
      else (rv, deps)

/-- `count_dependencies` (lines 58-119).  Each directory's file loop starts
with `root` holding the dirpath; the accumulated `deps` set is shared across
the whole walk.  (The source also defines a `DEPENDENCY_FILES` list at line
45, but the dispatch above is on literal filenames and never consults it:
`setup.py` and `composer.json` have no parser branch.) -/
def count_dependencies (gradleFind : String → List String)
    (path : String) (t : FTree) : Finset String :=
  walk_fold
    (fun deps e => (e.2.foldl (dep_file_step gradleFind) (RootVar.dir e.1, deps)).2)
    (∅ : Finset String) (walk path t)

/-- Line 158 of the source: the fixed ordered branch candidate list. -/
def branch_candidates : List String := ["main", "master", "develop"]

/-- Lines 158-165: probe the candidates in order with
`git rev-parse --verify` and keep the first that exists (`ex` is the
existence oracle); the `for ... else` returns `[]` when none does. -/
def branch_discover (ex : String → Bool) : Option String :=
  branch_candidates.find? ex

/-- Calendar time is modelled as whole days since 1970-01-01 (a Thursday),
so Python `now.weekday()` (Monday = 0) is `(now + 3) mod 7`. -/
def py_weekday (now : Int) : Int := (now + 3).emod 7

/-- Line 156: the date the sampling grid is anchored at — the start of the
current week for `weekly`, `now` itself otherwise. -/
def anchor_date (now : Int) (frequency : String) : Int :=
  if frequency == "weekly" then now - py_weekday now else now

/-- `get_commits` (lines 153-174).  `ex` is the branch-existence oracle and
`rev_list b d` the oracle for `git rev-list -1 --before d b` (`none` = the
subprocess raised `CalledProcessError`).  Note line 155: the period length
is `timedelta(weeks=1)` for weekly and `timedelta(weeks=30)` otherwise, so
`delta` is 7 or 210 days.  A date resolving to no commit (empty output) is
silently skipped. -/
def get_commits (ex : String → Bool) (rev_list : String → Int → Option String)
    (now : Int) (frequency : String) (periods : Nat) : List (String × Int) :=
  match branch_discover ex with
  | none => []
  | some branch =>
    let delta : Int := if frequency == "weekly" then 7 else 210
    let start : Int := anchor_date now frequency - delta * periods
    (List.range (periods + 1)).filterMap (fun (i : Nat) =>
      match rev_list branch (start + delta * (i : Int)) with
      | none => none
      | some out =>
        let commit := py_strip_ws out
        if commit = "" then none else some (commit, start + delta * (i : Int)))

/-- The extraction results of one module, as `analyze_service` receives them
from `count_endpoints`, `count_inter_service_calls` and `count_dependencies`
(lines 184-187). -/
structure ModuleResult where
  ep_count : Nat
  eps : Finset String
  call_count : Nat
  calls : Finset String
  deps : Finset String

/-- The per-snapshot record `analyze_service` emits (lines 206-215): the
three counts of the CSV row and the three aggregated sets. -/
structure SnapshotRow where
  endpoints : Nat
  dependencies : Nat
  inter_service_communications : Nat
  dep_set : Finset String
  ep_set : Finset String
  call_set : Finset String

/-- The aggregation core of `analyze_service` (lines 181-215):
`total_eps` sums the per-module endpoint counts, while the three sets are
unions; the row records `total_eps`, `len(all_deps)` and `len(all_calls)`. -/
def analyze_service_row (rs : List ModuleResult) : SnapshotRow :=
  let total_eps := (rs.map (fun r => r.ep_count)).sum
  let all_eps := rs.foldl (fun a r => a ∪ r.eps) (∅ : Finset String)
  let all_calls := rs.foldl (fun a r => a ∪ r.calls) (∅ : Finset String)
  let all_deps := rs.foldl (fun a r => a ∪ r.deps) (∅ : Finset String)
  ⟨total_eps, all_deps.card, all_calls.card, all_deps, all_eps, all_calls⟩

/-- The per-module extraction of `analyze_service` (lines 184-187) for one
module path. -/
def module_result (matchE : String → List (String × String))
    (matchC : String → List String) (gradleFind : String → List String)
    (path : String) (t : FTree) : ModuleResult :=
  ⟨(count_endpoints matchE path t).1, (count_endpoints matchE path t).2,
    (count_inter_service_calls matchC path t).1, (count_inter_service_calls matchC path t).2,
    count_dependencies gradleFind path t⟩

/-- The snapshot loop of `__main__` (lines 232-234): for each commit,
`git checkout` (`check=True`, so a failure raises with the tree unchanged)
then `analyze_service` (whose exceptions nothing catches).  Returns the
checked-out head after the loop, or `.error` with the head at the moment
the uncaught exception escaped. -/
def run_snapshots (checkout_ok : String → Bool) (analyze_ok : String → Bool) :
    String → List String → Except String String
  | head, [] => .ok head
  | head, c :: rest =>
    if checkout_ok c then
      if analyze_ok c then run_snapshots checkout_ok analyze_ok c rest
      else .error c
    else .error head

/-- The whole `__main__` run (lines 226-236): capture `original_head`, run
the snapshot loop, and only after it completes normally execute the single
restoring checkout of line 236.  Result: the final checked-out head and how
many times the restoring checkout was performed. -/
def main_run (checkout_ok analyze_ok : String → Bool)
    (original_head : String) (snaps : List String) : String × Nat :=
  match run_snapshots checkout_ok analyze_ok original_head snaps with
  | .ok h => (if checkout_ok original_head then original_head else h, 1)
  | .error h => (h, 0)

/-! Lemmas about stripping, used for the endpoint-normalization claim. -/

lemma dropWhile_dropWhile (p : Char → Bool) (l : List Char) :
    (l.dropWhile p).dropWhile p = l.dropWhile p := by
  induction l with
  | nil => rfl
  | cons a l ih =>
    by_cases h : p a = true
    · rw [List.dropWhile_cons, if_pos h]
      exact ih
    · rw [List.dropWhile_cons, if_neg h, List.dropWhile_cons, if_neg h]

lemma dropTrailingWhile_cons (p : Char → Bool) (c : Char) (cs : List Char) :
    dropTrailingWhile p (c :: cs) =
      match dropTrailingWhile p cs with
      | [] => if p c then [] else [c]
      | r => c :: r := by
  rw [dropTrailingWhile]

lemma dropTrailingWhile_idem (p : Char → Bool) (l : List Char) :
    dropTrailingWhile p (dropTrailingWhile p l) = dropTrailingWhile p l := by
  induction l with
  | nil => rfl
  | cons c cs ih =>
    rcases hr : dropTrailingWhile p cs with _ | ⟨r0, rs⟩
    · by_cases hc : p c = true
      · simp [dropTrailingWhile_cons, hr, hc, dropTrailingWhile]
      · simp only [Bool.not_eq_true] at hc
        simp [dropTrailingWhile_cons, hr, hc, dropTrailingWhile]
    · rw [hr] at ih
      have hcons : dropTrailingWhile p (c :: cs) = c :: r0 :: rs := by
        rw [dropTrailingWhile_cons, hr]
      rw [hcons, dropTrailingWhile_cons, ih]

lemma dropWhile_dropTrailingWhile (p : Char → Bool) (y : List Char)
    (h : y.dropWhile p = y) : (dropTrailingWhile p y).dropWhile p = dropTrailingWhile p y := by
  cases y with
  | nil => rfl
  | cons a ys =>
    have ha : p a = false := by
      by_contra hc
      simp only [Bool.not_eq_false] at hc
      rw [List.dropWhile_cons, if_pos hc] at h
      have hlen := congrArg List.length h
      have hle := (List.dropWhile_sublist (l := ys) p).length_le
      simp only [List.length_cons] at hlen
      omega
    rcases hr : dropTrailingWhile p ys with _ | ⟨r0, rs⟩
    · simp [dropTrailingWhile, hr, ha, List.dropWhile_cons]
    · simp [dropTrailingWhile, hr, ha, List.dropWhile_cons]

lemma pyStripBoth_slash_idem (p : Char → Bool) (hp : p '/' = true) (l : List Char) :
    pyStripBoth p ('/' :: pyStripBoth p l) = pyStripBoth p l := by
  unfold pyStripBoth
  rw [List.dropWhile_cons, if_pos hp]
  rw [dropWhile_dropTrailingWhile p (l.dropWhile p) (dropWhile_dropWhile p l)]
  exact dropTrailingWhile_idem p (l.dropWhile p)

/-- C6: the endpoint-path normalization of line 132 (strip the slashes off
both ends, then put back exactly one leading slash) is idempotent, and
`/users/`, `users`, `/users` all normalize to `/users`. -/
theorem normalize_endpoint_path_idempotent :
    (∀ s : String, normalize_endpoint_path (normalize_endpoint_path s)
        = normalize_endpoint_path s) ∧
    normalize_endpoint_path "/users/" = "/users" ∧
    normalize_endpoint_path "users" = "/users" ∧
    normalize_endpoint_path "/users" = "/users" := by
  refine ⟨fun s => ?_, by decide, by decide, by decide⟩
  show String.mk ('/' :: (py_strip_slashes (normalize_endpoint_path s)).data) = _
  unfold normalize_endpoint_path py_strip_slashes
  exact congrArg (fun l => String.mk ('/' :: l))
    (pyStripBoth_slash_idem (fun c => c == '/') rfl s.data)

/-- C7: the history walker probes `main`, `master`, `develop` in that fixed
order and uses the first existing one; when none of the three exists,
`get_commits` returns the empty snapshot list instead of raising. -/
theorem get_commits_branch_probe (ex : String → Bool)
    (rev : String → Int → Option String) (now : Int) (freq : String) (periods : Nat) :
    (branch_discover ex = none → get_commits ex rev now freq periods = []) ∧
    (ex "main" = true → branch_discover ex = some "main") ∧
    (ex "main" = false → ex "master" = true → branch_discover ex = some "master") ∧
    (ex "main" = false → ex "master" = false → ex "develop" = true →
      branch_discover ex = some "develop") ∧
    (ex "main" = false → ex "master" = false → ex "develop" = false →
      get_commits ex rev now freq periods = []) := by
  refine ⟨fun h => ?_, fun h1 => ?_, fun h1 h2 => ?_, fun h1 h2 h3 => ?_, fun h1 h2 h3 => ?_⟩
  · simp [get_commits, h]
  · simp [branch_discover, branch_candidates, List.find?, h1]
  · simp [branch_discover, branch_candidates, List.find?, h1, h2]
  · simp [branch_discover, branch_candidates, List.find?, h1, h2, h3]
  · have : branch_discover ex = none := by
      simp [branch_discover, branch_candidates, List.find?, h1, h2, h3]
    simp [get_commits, this]

/-- Witness for C7 at a concrete repository whose only branch is `develop`. -/
theorem get_commits_branch_probe_develop :
    branch_discover (fun b => b == "develop") = some "develop" :=
  (get_commits_branch_probe (fun b => b == "develop") (fun _ _ => none)
    0 "weekly" 0).2.2.2.1 (by decide) (by decide) (by decide)

/-- C1: a run whose single snapshot is checked out successfully but whose
analysis raises ends with the historical commit `c1` still checked out and
the restoring checkout of line 236 never performed — the head is not
restored to the original `h0`. -/
theorem main_run_skips_restore_on_failure :
    main_run (fun _ => true) (fun _ => false) "h0" ["c1"] = ("c1", 0) ∧
    ("c1" : String) ≠ "h0" := by
  exact ⟨rfl, by decide⟩

/-- A valid `pom.xml` declaring the single production dependency
`org.demo:core:1.0` (parse succeeds, so line 73 rebinds `root`). -/
def pom_demo_file : MFile :=
  ⟨"pom.xml", .error (),
    .ok [⟨none, some ⟨some "org.demo"⟩, some ⟨some "core"⟩, some ⟨some "1.0"⟩⟩],
    .error ()⟩

/-- A valid `requirements.txt` whose single line is `foo==1.0`. -/
def req_demo_file : MFile := ⟨"requirements.txt", .ok ["foo==1.0"], .error (), .error ()⟩

/-- C3: in a directory listing the valid `pom.xml` before the valid
`requirements.txt`, the successfully parsed `pom.xml` overwrites the loop
variable `root` with the XML root element (line 73), so
`os.path.join(root, file)` raises for every later file in that directory and
`foo` is silently dropped; listing the same two files in the opposite order
yields both coordinates. -/
theorem count_dependencies_drops_later_manifest :
    count_dependencies (fun _ => []) "srv" (.node [pom_demo_file, req_demo_file] .nil)
        = {"org.demo:core:1.0"} ∧
    "foo" ∉ count_dependencies (fun _ => []) "srv" (.node [pom_demo_file, req_demo_file] .nil) ∧
    "foo" ∈ count_dependencies (fun _ => []) "srv" (.node [req_demo_file, pom_demo_file] .nil) ∧
    "org.demo:core:1.0"
        ∈ count_dependencies (fun _ => []) "srv" (.node [req_demo_file, pom_demo_file] .nil) := by
  refine ⟨by decide, by decide, by decide, by decide⟩

/-- C8: an XML dependency node whose scope text is one of the unwanted
scopes is skipped; the same node with no scope element contributes its
`group:artifact:version` coordinate, with `<inherited>` in place of an
absent version element. -/
theorem pom_scope_filtering (sc g a v : String)
    (h : UNWANTED_SCOPES.contains (py_strip_ws sc) = true) :
    pom_nodes_fold [⟨some ⟨some sc⟩, some ⟨some g⟩, some ⟨some a⟩, some ⟨some v⟩⟩] ∅ = ∅ ∧
    pom_nodes_fold [⟨none, some ⟨some g⟩, some ⟨some a⟩, some ⟨some v⟩⟩] ∅
      = {py_strip_ws g ++ ":" ++ py_strip_ws a ++ ":" ++ py_strip_ws v} ∧
    pom_nodes_fold [⟨none, some ⟨some g⟩, some ⟨some a⟩, none⟩] ∅
      = {py_strip_ws g ++ ":" ++ py_strip_ws a ++ ":" ++ "<inherited>"} := by
  refine ⟨?_, rfl, rfl⟩
  have hm : py_strip_ws sc ∈ UNWANTED_SCOPES := by simpa using h
  simp [pom_nodes_fold, pom_node_coord, elem_text_strip, hm]

/-- Witness for C8 at the concrete scope `test` and coordinate `g:a:1.0`. -/
theorem pom_scope_filtering_test_scope :
    UNWANTED_SCOPES.contains (py_strip_ws "test") = true ∧
    pom_nodes_fold [⟨some ⟨some "test"⟩, some ⟨some "g"⟩, some ⟨some "a"⟩,
      some ⟨some "1.0"⟩⟩] ∅ = ∅ :=
  ⟨by decide, (pom_scope_filtering "test" "g" "a" "1.0" (by decide)).1⟩

lemma mem_requirements_fold (lines : List String) (acc : Finset String) (c : String) :
    c ∈ requirements_fold lines acc ↔
      c ∈ acc ∨ ∃ l, l ∈ lines ∧ py_strip_ws l ≠ "" ∧ py_startswith l "#" = false
        ∧ c = py_before_eqeq (py_strip_ws l) := by
  induction lines generalizing acc with
  | nil => simp [requirements_fold]
  | cons l ls ih =>
    have step : requirements_fold (l :: ls) acc
        = requirements_fold ls
          (if !(py_strip_ws l == "") && !py_startswith l "#" then
            insert (py_before_eqeq (py_strip_ws l)) acc else acc) := rfl
    rw [step, ih]
    by_cases h1 : py_strip_ws l = ""
    all_goals by_cases h2 : py_startswith l "#" = false
    all_goals simp [h1, h2, List.mem_cons, Finset.mem_insert]
    all_goals aesop

/-- C9: a line of a `requirements.txt` contributes a coordinate exactly when
it is non-blank and does not start with `#`, and then it contributes
precisely the text before the first `==` of the stripped line; in
particular comment lines contribute nothing. -/
theorem requirements_txt_contributions (lines : List String) (c : String) :
    c ∈ requirements_fold lines ∅ ↔
      ∃ l, l ∈ lines ∧ py_strip_ws l ≠ "" ∧ py_startswith l "#" = false
        ∧ c = py_before_eqeq (py_strip_ws l) := by
  rw [mem_requirements_fold]
  simp

/-! Substring facts: an excluded token occurring in a path still occurs in
every extension of that path, so exclusion of a module path propagates to
every directory the walk visits under it. -/

lemma list_is_pre_append (s l q : List Char) (h : list_is_pre s l = true) :
    list_is_pre s (l ++ q) = true := by
  induction s generalizing l with
  | nil => rfl
  | cons a s ih =>
    cases l with
    | nil => exact absurd h (by simp [list_is_pre])
    | cons b l2 =>
      simp only [List.cons_append, list_is_pre, Bool.and_eq_true] at h ⊢
      exact ⟨h.1, ih l2 h.2⟩

lemma list_contains_seq_nil_left (q : List Char) : list_contains_seq [] q = true := by
  cases q with
  | nil => rfl
  | cons b rest => simp [list_contains_seq, list_is_pre]

lemma list_contains_seq_append (s l q : List Char) (h : list_contains_seq s l = true) :
    list_contains_seq s (l ++ q) = true := by
  induction l with
  | nil =>
    cases s with
    | nil => exact list_contains_seq_nil_left q
    | cons a s2 => exact absurd h (by simp [list_contains_seq, list_is_pre])
  | cons b rest ih =>
    simp only [list_contains_seq, Bool.or_eq_true] at h
    rcases h with h | h
    · simp only [List.cons_append, list_contains_seq, Bool.or_eq_true]
      exact Or.inl (list_is_pre_append s (b :: rest) q h)
    · simp only [List.cons_append, list_contains_seq, Bool.or_eq_true]
      exact Or.inr (ih h)

lemma is_excluded_path_extend (p r : String) (q : List Char)
    (hd : r.data = p.data ++ q) (h : is_excluded_path p = true) :
    is_excluded_path r = true := by
  simp only [is_excluded_path, List.any_eq_true] at h ⊢
  obtain ⟨e, he, hc⟩ := h
  refine ⟨e, he, ?_⟩
  unfold py_in at hc ⊢
  rw [hd]
  exact list_contains_seq_append e.data p.data q hc

mutual
theorem walk_entry_root : ∀ (t : FTree) (p : String) (e : String × List MFile),
    e ∈ walk p t → ∃ q, e.1.data = p.data ++ q
  | .node fs sub, p, e, h => by
    rw [walk] at h
    rcases List.mem_cons.mp h with h | h
    · exact ⟨[], by rw [h]; simp⟩
    · exact walk_forest_entry_root sub p e h
theorem walk_forest_entry_root : ∀ (fo : FForest) (p : String) (e : String × List MFile),
    e ∈ walk_forest p fo → ∃ q, e.1.data = p.data ++ q
  | .nil, p, e, h => absurd h (by rw [walk_forest] at h ⊢; simp)
  | .cons name t rest, p, e, h => by
    rw [walk_forest] at h
    rcases List.mem_append.mp h with h | h
    · obtain ⟨q, hq⟩ := walk_entry_root t (py_join p name) e h
      refine ⟨'/' :: (name.data ++ q), ?_⟩
      rw [hq]
      simp [py_join]
    · exact walk_forest_entry_root rest p e h
end

lemma walk_fold_of_excluded {α : Type} (step : α → String × List MFile → α) (init : α)
    (entries : List (String × List MFile))
    (h : ∀ e ∈ entries, is_excluded_path e.1 = true) :
    walk_fold step init entries = init := by
  induction entries with
  | nil => rfl
  | cons e es ih =>
    have he := h e (List.mem_cons_self e es)
    have hstep : walk_fold step init (e :: es) = walk_fold step init es := by
      unfold walk_fold
      rw [List.foldl_cons, if_pos he]
    rw [hstep]
    exact ih (fun x hx => h x (List.mem_cons_of_mem e hx))

/-- C10: when the module path itself contains an excluded-directory token as
a substring, every directory the walk visits is excluded, so all three
extraction operations return empty results no matter what the tree holds. -/
theorem excluded_module_path_yields_empty (mE : String → List (String × String))
    (mC gF : String → List String) (p : String) (t : FTree)
    (h : is_excluded_path p = true) :
    count_endpoints mE p t = (0, ∅) ∧
    count_inter_service_calls mC p t = (0, ∅) ∧
    count_dependencies gF p t = ∅ := by
  have hall : ∀ e ∈ walk p t, is_excluded_path e.1 = true := by
    intro e he
    obtain ⟨q, hq⟩ := walk_entry_root t p e he
    exact is_excluded_path_extend p e.1 q hq h
  refine ⟨?_, ?_, ?_⟩
  · show ((walk_fold (fun acc e => e.2.foldl (ep_file_step mE) acc)
        (∅ : Finset (String × String)) (walk p t)).card, _) = (0, ∅)
    rw [walk_fold_of_excluded _ _ _ hall]
    simp
  · show ((walk_fold (fun acc e => e.2.foldl (call_file_step mC) acc)
        (∅ : Finset String) (walk p t)).card, _) = (0, ∅)
    rw [walk_fold_of_excluded _ _ _ hall]
    simp
  · exact walk_fold_of_excluded _ _ _ hall

/-- Witness for C10: a module path containing the token `test`, over a tree
that does hold a parseable manifest, still yields empty results. -/
theorem excluded_module_path_yields_empty_app_test :
    is_excluded_path "app/test" = true ∧
    count_endpoints (fun _ => [("GET", "x")]) "app/test" (.node [req_demo_file] .nil)
      = (0, ∅) ∧
    count_inter_service_calls (fun _ => ["fetch("]) "app/test" (.node [req_demo_file] .nil)
      = (0, ∅) ∧
    count_dependencies (fun _ => []) "app/test" (.node [req_demo_file] .nil) = ∅ :=
  ⟨by decide,
    excluded_module_path_yields_empty (fun _ => [("GET", "x")]) (fun _ => ["fetch("])
      (fun _ => []) "app/test" (.node [req_demo_file] .nil) (by decide)⟩

/-! Per-file error absorption: each extraction loop's `try/except` makes a
file whose read (and, for manifests, whose external parse) raises behave as
if it were absent. -/

lemma ep_file_step_error (mE : String → List (String × String))
    (acc : Finset (String × String)) (f : MFile) (hc : f.content = .error ()) :
    ep_file_step mE acc f = acc := by
  unfold ep_file_step
  rw [hc]
  split <;> rfl

lemma call_file_step_error (mC : String → List String)
    (acc : Finset String) (f : MFile) (hc : f.content = .error ()) :
    call_file_step mC acc f = acc := by
  unfold call_file_step
  rw [hc]
  split <;> rfl

lemma dep_file_step_error (gF : String → List String) (st : RootVar × Finset String)
    (f : MFile) (hc : f.content = .error ()) (hx : f.xmlParse = .error ())
    (hj : f.jsonDeps = .error ()) :
    dep_file_step gF st f = st := by
  unfold dep_file_step
  rw [hc, hx, hj]
  rcases st with ⟨rv, deps⟩
  rcases rv with r | _ <;> (repeat' split) <;> first | rfl | simp_all

lemma dep_file_step_pom_parse_error (gF : String → List String)
    (st : RootVar × Finset String) (g : MFile)
    (hn : g.name = "pom.xml") (hx : g.xmlParse = .error ()) :
    dep_file_step gF st g = st := by
  unfold dep_file_step
  rcases st with ⟨rv, deps⟩
  rw [hn, hx]
  rcases rv with r | _ <;> simp

lemma walk_fold_files_cons {α : Type} (stepf : α → MFile → α) (init : α)
    (p : String) (f : MFile) (fs : List MFile) (sub : FForest)
    (hf : ∀ acc, stepf acc f = acc) :
    walk_fold (fun acc e => e.2.foldl stepf acc) init (walk p (.node (f :: fs) sub))
      = walk_fold (fun acc e => e.2.foldl stepf acc) init (walk p (.node fs sub)) := by
  rw [walk, walk]
  unfold walk_fold
  rw [List.foldl_cons, List.foldl_cons]
  by_cases hp : is_excluded_path p = true
  · simp only [hp, if_true]
  · simp only [hp, if_false, List.foldl_cons, hf init]

/-- C5: an unreadable or unparseable file — its text read raises, and for
manifest files the XML/JSON parsers raise too — contributes nothing to any
of the three extraction operations: each one returns exactly what it
returns on the same tree without that file, and (the functions being total)
no exception escapes the extraction boundary.  Likewise a readable
`pom.xml` whose XML parse alone fails contributes no dependencies. -/
theorem extraction_error_file_contributes_nothing
    (mE : String → List (String × String)) (mC gF : String → List String)
    (p : String) (f : MFile) (fs : List MFile) (sub : FForest)
    (hc : f.content = .error ()) (hx : f.xmlParse = .error ())
    (hj : f.jsonDeps = .error ()) :
    count_endpoints mE p (.node (f :: fs) sub) = count_endpoints mE p (.node fs sub) ∧
    count_inter_service_calls mC p (.node (f :: fs) sub)
      = count_inter_service_calls mC p (.node fs sub) ∧
    count_dependencies gF p (.node (f :: fs) sub)
      = count_dependencies gF p (.node fs sub) ∧
    (∀ g : MFile, g.name = "pom.xml" → g.xmlParse = .error () →
      count_dependencies gF p (.node (g :: fs) sub)
        = count_dependencies gF p (.node fs sub)) := by
  have dep_drop : ∀ g : MFile,
      (∀ st : RootVar × Finset String, dep_file_step gF st g = st) →
      count_dependencies gF p (.node (g :: fs) sub)
        = count_dependencies gF p (.node fs sub) := by
    intro g hg
    show walk_fold (fun deps e => (e.2.foldl (dep_file_step gF) (RootVar.dir e.1, deps)).2)
        (∅ : Finset String) (walk p (.node (g :: fs) sub))
      = walk_fold (fun deps e => (e.2.foldl (dep_file_step gF) (RootVar.dir e.1, deps)).2)
        (∅ : Finset String) (walk p (.node fs sub))
    rw [walk, walk]
    unfold walk_fold
    rw [List.foldl_cons, List.foldl_cons]
    by_cases hp : is_excluded_path p = true
    · simp only [hp, if_true]
    · simp only [hp, if_false, List.foldl_cons, hg (RootVar.dir p, ∅)]
  refine ⟨?_, ?_, ?_, fun g hn hx2 =>
    dep_drop g (fun st => dep_file_step_pom_parse_error gF st g hn hx2)⟩
  · have key := walk_fold_files_cons (ep_file_step mE) (∅ : Finset (String × String))
      p f fs sub (fun acc => ep_file_step_error mE acc f hc)
    show ((walk_fold (fun acc e => e.2.foldl (ep_file_step mE) acc)
        (∅ : Finset (String × String)) (walk p (.node (f :: fs) sub))).card, _) = _
    rw [key]
    rfl
  · have key := walk_fold_files_cons (call_file_step mC) (∅ : Finset String)
      p f fs sub (fun acc => call_file_step_error mC acc f hc)
    show ((walk_fold (fun acc e => e.2.foldl (call_file_step mC) acc)
        (∅ : Finset String) (walk p (.node (f :: fs) sub))).card, _) = _
    rw [key]
    rfl
  · exact dep_drop f (fun st => dep_file_step_error gF st f hc hx hj)

/-! The history walker's date grid. -/

lemma pairwise_map_filterMap {α β γ : Type} (R : γ → γ → Prop) (S : α → α → Prop)
    (g : α → Option β) (h : β → γ) (l : List α) (hl : l.Pairwise S)
    (himp : ∀ a b x y, S a b → g a = some x → g b = some y → R (h x) (h y)) :
    ((l.filterMap g).map h).Pairwise R := by
  induction l with
  | nil => simp
  | cons a l ih =>
    rcases hl with _ | ⟨ha, hl⟩
    rw [List.filterMap_cons]
    cases hg : g a with
    | none => exact ih hl
    | some b =>
      rw [List.map_cons]
      refine List.Pairwise.cons ?_ (ih hl)
      intro y hy
      obtain ⟨x, hx, rfl⟩ := List.mem_map.mp hy
      obtain ⟨c, hc, hgc⟩ := List.mem_filterMap.mp hx
      exact himp a c b x (ha c hc) hg hgc

lemma get_commits_aux_snd (rev : String → Int → Option String) (b : String) (d : Int)
    (x : String × Int)
    (h : (match rev b d with
          | none => none
          | some out =>
            let commit := py_strip_ws out
            if commit = "" then none else some (commit, d)) = some x) :
    x.2 = d := by
  rcases hv : rev b d with _ | out <;> rw [hv] at h
  · simp at h
  · simp only at h
    by_cases hs : py_strip_ws out = ""
    · simp [hs] at h
    · simp [hs] at h
      subst h
      rfl

lemma get_commits_zero (ex : String → Bool) (rev : String → Int → Option String)
    (now : Int) (freq : String) :
    get_commits ex rev now freq 0 =
      (branch_discover ex).elim []
        (fun b => (rev b (anchor_date now freq)).elim []
          (fun out =>
            if py_strip_ws out = "" then []
            else [(py_strip_ws out, anchor_date now freq)])) := by
  unfold get_commits
  cases hb : branch_discover ex with
  | none => rfl
  | some b =>
    have h1 : (0 : Nat) + 1 = 1 := rfl
    rw [h1]
    have h2 : List.range 1 = [0] := rfl
    rw [h2]
    simp only [List.filterMap_cons, List.filterMap_nil, Nat.cast_zero, mul_zero,
      sub_zero, add_zero]
    simp only [Option.elim_some]
    cases rev b (anchor_date now freq) with
    | none => rfl
    | some out =>
      by_cases hs : py_strip_ws out = "" <;> simp [hs]

/-- C4 (amended): the snapshot dates `get_commits` returns are always
non-decreasing; with 0 periods the walker yields at most one snapshot,
always dated at the anchor date, and exactly one snapshot precisely when a
candidate branch exists and the anchor date resolves to a (non-empty)
commit. -/
theorem get_commits_dates_properties (ex : String → Bool)
    (rev : String → Int → Option String) (now : Int) (freq : String) (periods : Nat) :
    ((get_commits ex rev now freq periods).map Prod.snd).Pairwise (· ≤ ·) ∧
    (get_commits ex rev now freq 0).length ≤ 1 ∧
    (∀ e ∈ get_commits ex rev now freq 0, e.2 = anchor_date now freq) ∧
    (∀ b c, branch_discover ex = some b → rev b (anchor_date now freq) = some c →
      py_strip_ws c ≠ "" →
      get_commits ex rev now freq 0 = [(py_strip_ws c, anchor_date now freq)]) := by
  refine ⟨?_, ?_, ?_, fun b c hb hrev hne => ?_⟩
  · unfold get_commits
    cases hb : branch_discover ex with
    | none => simp
    | some b =>
      refine pairwise_map_filterMap _ (· < ·) _ _ _ (List.pairwise_lt_range _) ?_
      intro i j x y hij hgi hgj
      have hdelta : (0 : Int) ≤ if freq == "weekly" then 7 else 210 := by
        split <;> norm_num
      have hx := get_commits_aux_snd rev b _ x hgi
      have hy := get_commits_aux_snd rev b _ y hgj
      rw [hx, hy]
      have : (if freq == "weekly" then (7 : Int) else 210) * i
          ≤ (if freq == "weekly" then (7 : Int) else 210) * j :=
        mul_le_mul_of_nonneg_left (by exact_mod_cast hij.le) hdelta
      omega
  · rw [get_commits_zero]
    rcases hb : branch_discover ex with _ | b
    · simp
    · simp only [Option.elim_some]
      rcases hv : rev b (anchor_date now freq) with _ | out
      · simp
      · simp only [Option.elim_some]
        by_cases hs : py_strip_ws out = "" <;> simp [hs]
  · intro e he
    rw [get_commits_zero] at he
    rcases hb : branch_discover ex with _ | b
    · rw [hb] at he
      simp at he
    · rw [hb] at he
      simp only [Option.elim_some] at he
      rcases hv : rev b (anchor_date now freq) with _ | out
      · rw [hv] at he
        simp at he
      · rw [hv] at he
        simp only [Option.elim_some] at he
        by_cases hs : py_strip_ws out = "" <;> simp [hs] at he
        rw [he]
  · rw [get_commits_zero, hb]
    simp only [Option.elim_some]
    rw [hrev]
    simp only [Option.elim_some]
    simp [hne]

/-- Witness for C4's amended statement: one branch, a commit at the anchor,
0 periods — exactly one snapshot at the anchor date. -/
theorem get_commits_dates_properties_monthly_zero :
    get_commits (fun b => b == "main") (fun _ _ => some "c1") 10 "monthly" 0
      = [("c1", 10)] := by
  have h := (get_commits_dates_properties (fun b => b == "main")
    (fun _ _ => some "c1") 10 "monthly" 0).2.2.2 "main" "c1" (by decide) rfl (by decide)
  rw [h]
  decide

/-- Counterexample to C4 as stated: in a repository with none of the three
candidate branches, requesting 0 periods yields 0 snapshots, not exactly 1. -/
theorem get_commits_zero_periods_can_be_empty :
    get_commits (fun _ => false) (fun _ _ => none) 0 "weekly" 0 = [] ∧
    (get_commits (fun _ => false) (fun _ _ => none) 0 "weekly" 0).length ≠ 1 := by
  exact ⟨rfl, by decide⟩

/-! Aggregation counts (`analyze_service`). -/

lemma card_foldl_union_eps : ∀ (rs : List ModuleResult) (acc : Finset String),
    rs.Pairwise (fun r s => Disjoint r.eps s.eps) →
    (∀ r ∈ rs, Disjoint acc r.eps) →
    (rs.foldl (fun a r => a ∪ r.eps) acc).card
      = acc.card + (rs.map (fun r => r.eps.card)).sum := by
  intro rs
  induction rs with
  | nil => intro acc _ _; simp
  | cons r rs ih =>
    intro acc hdisj hacc
    rcases hdisj with _ | ⟨hr, hdisj⟩
    rw [List.foldl_cons]
    have hstep : ∀ s ∈ rs, Disjoint (acc ∪ r.eps) s.eps := by
      intro s hs
      exact Finset.disjoint_union_left.mpr
        ⟨hacc s (List.mem_cons_of_mem r hs), hr s hs⟩
    rw [ih (acc ∪ r.eps) hdisj hstep,
      Finset.card_union_of_disjoint (hacc r (List.mem_cons_self r rs))]
    simp only [List.map_cons, List.sum_cons]
    omega

lemma map_sum_congr (rs : List ModuleResult) (f g : ModuleResult → Nat)
    (h : ∀ r ∈ rs, f r = g r) : (rs.map f).sum = (rs.map g).sum := by
  induction rs with
  | nil => rfl
  | cons r rs ih =>
    simp only [List.map_cons, List.sum_cons, h r (List.mem_cons_self r rs),
      ih (fun x hx => h x (List.mem_cons_of_mem r hx))]

/-- C2 (amended): in the snapshot row, the dependency and call counts equal
the cardinalities of the corresponding aggregated union sets, but the
endpoint count is the SUM of the per-module endpoint counts; it coincides
with the cardinality of the endpoint union only under extra assumptions,
e.g. when per-module counts match per-module cardinalities and the
per-module endpoint sets are pairwise disjoint. -/
theorem analyze_service_row_counts (rs : List ModuleResult) :
    (analyze_service_row rs).dependencies = (analyze_service_row rs).dep_set.card ∧
    (analyze_service_row rs).inter_service_communications
      = (analyze_service_row rs).call_set.card ∧
    (analyze_service_row rs).endpoints = (rs.map (fun r => r.ep_count)).sum ∧
    (rs.Pairwise (fun r s => Disjoint r.eps s.eps) →
      (∀ r ∈ rs, r.ep_count = r.eps.card) →
      (analyze_service_row rs).endpoints = (analyze_service_row rs).ep_set.card) := by
  refine ⟨rfl, rfl, rfl, fun hdisj hcard => ?_⟩
  show (rs.map (fun r => r.ep_count)).sum
    = (rs.foldl (fun a r => a ∪ r.eps) (∅ : Finset String)).card
  rw [card_foldl_union_eps rs ∅ hdisj (fun r _ => Finset.disjoint_empty_left r.eps)]
  rw [map_sum_congr rs _ _ hcard]
  simp

/-- Witness for C2's amended statement: a single module with one endpoint. -/
theorem analyze_service_row_counts_single :
    (analyze_service_row [⟨1, {"GET /a"}, 0, ∅, ∅⟩]).endpoints
      = (analyze_service_row [⟨1, {"GET /a"}, 0, ∅, ∅⟩]).ep_set.card :=
  (analyze_service_row_counts [⟨1, {"GET /a"}, 0, ∅, ∅⟩]).2.2.2
    (by simp) (by intro r hr; simp at hr; rw [hr]; simp)

/-- An endpoint-bearing module tree: one source file, and a regex oracle
that reports a single captured route `x` for any content. -/
def ep_demo_tree : FTree := .node [⟨"a.py", .ok ["app.get x"], .error (), .error ()⟩] .nil

/-- The endpoint-pattern oracle for the C2 counterexample. -/
def ep_demo_oracle : String → List (String × String) := fun _ => [("GET", "x")]

/-- The extraction result of analyzing `ep_demo_tree` as module `m1`. -/
def mr_m1 : ModuleResult :=
  module_result ep_demo_oracle (fun _ => []) (fun _ => []) "m1" ep_demo_tree

/-- The extraction result of analyzing `ep_demo_tree` as module `m2`. -/
def mr_m2 : ModuleResult :=
  module_result ep_demo_oracle (fun _ => []) (fun _ => []) "m2" ep_demo_tree

/-- Counterexample to C2 as stated: two modules that each expose the same
single endpoint `GET /x` produce a snapshot row whose endpoint count is 2
(the sum of per-module counts) while the aggregated endpoint set has
cardinality 1 — the recorded endpoint count is not the cardinality of the
union set. -/
theorem analyze_service_row_endpoint_count_mismatch :
    (analyze_service_row [mr_m1, mr_m2]).endpoints = 2 ∧
    (analyze_service_row [mr_m1, mr_m2]).ep_set.card = 1 ∧
    (analyze_service_row [mr_m1, mr_m2]).endpoints
      ≠ (analyze_service_row [mr_m1, mr_m2]).ep_set.card := by
  refine ⟨by decide, by decide, by decide⟩

/-- Witness for C5: a concrete unreadable file named like both a source file
and no manifest at all changes nothing in a one-directory tree. -/
theorem extraction_error_file_contributes_nothing_concrete :
    ((⟨"broken.py", .error (), .error (), .error ()⟩ : MFile).content = .error ()) ∧
    count_endpoints (fun _ => [("GET", "x")]) "srv"
        (.node [⟨"broken.py", .error (), .error (), .error ()⟩] .nil)
      = count_endpoints (fun _ => [("GET", "x")]) "srv" (.node [] .nil) ∧
    count_inter_service_calls (fun _ => ["fetch("]) "srv"
        (.node [⟨"broken.py", .error (), .error (), .error ()⟩] .nil)
      = count_inter_service_calls (fun _ => ["fetch("]) "srv" (.node [] .nil) ∧
    count_dependencies (fun _ => []) "srv"
        (.node [⟨"broken.py", .error (), .error (), .error ()⟩] .nil)
      = count_dependencies (fun _ => []) "srv" (.node [] .nil) ∧
    count_dependencies (fun _ => []) "srv"
        (.node [⟨"pom.xml", .ok [], .error (), .error ()⟩] .nil)
      = count_dependencies (fun _ => []) "srv" (.node [] .nil) := by
  have h := extraction_error_file_contributes_nothing (fun _ => [("GET", "x")])
    (fun _ => ["fetch("]) (fun _ => []) "srv"
    ⟨"broken.py", .error (), .error (), .error ()⟩ [] .nil rfl rfl rfl
  exact ⟨rfl, h.1, h.2.1, h.2.2.1,
    h.2.2.2 ⟨"pom.xml", .ok [], .error (), .error ()⟩ rfl rfl⟩

end MCA
